import Mathlib

/-!
Shallow embedding of the signal engine of `cloud_app.py` (macro-radar).

The engine is the function `calculate_signal`, which receives a pandas
DataFrame with a date index and two numeric columns (`Net_Liquidity`,
`BTC_Price`) and assigns four derived columns:

* `Liq_SMA_20`  — trailing 20-row simple moving average of `Net_Liquidity`,
* `BTC_SMA_20`  — trailing 20-row simple moving average of `BTC_Price`,
* `Correlation` — trailing 30-row Pearson correlation of the two series,
* `Signal`      — a categorical label produced row-wise by `get_status`.

The embedding models a DataFrame as lists; a pandas NaN entry in a derived
column is modelled as `none`.  Input values are rationals (the Python floats,
taken at exact-arithmetic level); the correlation value lives in `ℝ` because
of the square root in the Pearson formula.  Column assignment `df['C'] = ...`
mutates the frame in place in Python: we model the post-call state of the
caller's frame as the value returned by `calculate_signal`.
-/

namespace MacroRadar

/-- The four categorical values produced by `get_status` in `cloud_app.py`
(the emoji-decorated strings "🟢 STRONG LONG", "🔴 DIVERGENCE (Risk)",
"🟡 BUY OPPORTUNITY", "⚪ NEUTRAL"). -/
inductive Signal : Type
  | STRONG_LONG
  | DIVERGENCE
  | BUY_OPPORTUNITY
  | NEUTRAL
  deriving DecidableEq, Repr

/-- A pandas DataFrame as the app uses it: a date index, the two input
columns, the four derived columns (empty when the column has not been
assigned yet), and the list of column labels present on the object.
A `none` entry of a derived column models a NaN. -/
structure DataFrame where
  dates : List ℤ
  netLiquidity : List ℚ
  btcPrice : List ℚ
  liqSMA20 : List (Option ℚ)
  btcSMA20 : List (Option ℚ)
  correlation : List (Option ℝ)
  signal : List Signal
  columns : List String

attribute [ext] DataFrame

/-- The columns of the raw frame produced by `get_market_data`:
`Net_Liquidity` and (after the rename of `Close`) `BTC_Price`. -/
def inputColumns : List String := ["Net_Liquidity", "BTC_Price"]

/-- An input frame as handed to `calculate_signal` by `get_market_data`:
only the date index and the two data columns are present. -/
def DataFrame.ofInput (dates : List ℤ) (net btc : List ℚ) : DataFrame :=
  ⟨dates, net, btc, [], [], [], [], inputColumns⟩

/-- Well-formedness of a frame: each data column has one entry per index
entry (pandas guarantees this for every real frame). -/
def DataFrame.WF (df : DataFrame) : Prop :=
  df.netLiquidity.length = df.dates.length ∧ df.btcPrice.length = df.dates.length

instance (df : DataFrame) : Decidable df.WF := by
  unfold DataFrame.WF; infer_instance

/-! Concrete example tables used by the witnesses. -/

/-- A single-row input table. -/
def exInput : DataFrame := DataFrame.ofInput [0] [100] [50]

/-- A 30-row input table with strictly increasing liquidity and price
(price twice the liquidity). -/
def exFrame30 : DataFrame :=
  DataFrame.ofInput
    [0, 1, 2, 3, 4, 5, 6, 7, 8, 9, 10, 11, 12, 13, 14, 15, 16, 17, 18, 19, 20, 21, 22, 23,
      24, 25, 26, 27, 28, 29]
    [0, 1, 2, 3, 4, 5, 6, 7, 8, 9, 10, 11, 12, 13, 14, 15, 16, 17, 18, 19, 20, 21, 22, 23,
      24, 25, 26, 27, 28, 29]
    [0, 2, 4, 6, 8, 10, 12, 14, 16, 18, 20, 22, 24, 26, 28, 30, 32, 34, 36, 38, 40, 42, 44,
      46, 48, 50, 52, 54, 56, 58]

/-- The spec's §8 scenario: 35 rows of constant liquidity 100 with price
increasing by 1 per day from 50. -/
def exFrame35 : DataFrame :=
  DataFrame.ofInput
    [0, 1, 2, 3, 4, 5, 6, 7, 8, 9, 10, 11, 12, 13, 14, 15, 16, 17, 18, 19, 20, 21, 22, 23,
      24, 25, 26, 27, 28, 29, 30, 31, 32, 33, 34]
    (List.replicate 35 100)
    [50, 51, 52, 53, 54, 55, 56, 57, 58, 59, 60, 61, 62, 63, 64, 65, 66, 67, 68, 69, 70,
      71, 72, 73, 74, 75, 76, 77, 78, 79, 80, 81, 82, 83, 84]

/-- The trailing window of width `w` ending at row `i` of a series:
rows `i+1-w .. i`.  When fewer than `w` rows precede, the window is the
(shorter) initial segment `0 .. i`. -/
def windowAt (xs : List ℚ) (w i : ℕ) : List ℚ :=
  (xs.take (i + 1)).drop (i + 1 - w)

/-- `series.rolling(window=w).mean()` at row `i`: the mean of the trailing
window when it holds `w` observations, NaN (`none`) otherwise
(pandas defaults `min_periods` to the window size). -/
def smaAt (xs : List ℚ) (w i : ℕ) : Option ℚ :=
  if (windowAt xs w i).length = w then some ((windowAt xs w i).sum / (w : ℚ)) else none

/-- Numerator of the Pearson correlation of two equal-length windows,
scaled by the window length: `n·Σxy − Σx·Σy`. -/
def covNum (x y : List ℚ) : ℚ :=
  (x.length : ℚ) * (List.zipWith (fun a b => a * b) x y).sum - x.sum * y.sum

/-- Scaled variance of a window: `n·Σx² − (Σx)²`; zero exactly when the
window has zero variance. -/
def varNum (x : List ℚ) : ℚ :=
  (x.length : ℚ) * (x.map (fun a => a ^ 2)).sum - x.sum ^ 2

/-- `xs.rolling(window=30).corr(ys)` at row `i`: NaN (`none`) while the
window is incomplete; NaN when either window has zero variance (the 0/0 of
cov/(σx·σy)); otherwise the Pearson coefficient.  The `n`-scaled numerator
and variances give the same ratio as the sample covariance over the product
of sample standard deviations. -/
noncomputable def corrAt (xs ys : List ℚ) (i : ℕ) : Option ℝ :=
  if (windowAt xs 30 i).length = 30 ∧ (windowAt ys 30 i).length = 30 then
    if varNum (windowAt xs 30 i) = 0 ∨ varNum (windowAt ys 30 i) = 0 then none
    else some ((covNum (windowAt xs 30 i) (windowAt ys 30 i) : ℝ) /
      Real.sqrt ((varNum (windowAt xs 30 i) : ℝ) * (varNum (windowAt ys 30 i) : ℝ)))
  else none

/-- Python comparison `a > b` where `b` may be NaN: any comparison against
NaN is `False`. -/
def gtNaN (a : ℚ) : Option ℚ → Bool
  | none => false
  | some b => decide (b < a)

/-- Python comparison `row['Correlation'] > 0.5` where the correlation may
be NaN: `False` on NaN. -/
noncomputable def corrHigh : Option ℝ → Bool
  | none => false
  | some r => decide (r > 0.5)

/-- Row classifier `get_status` of `cloud_app.py`: the four-branch priority
chain over `liq_trend_up`, `btc_trend_up`, `high_corr`. -/
noncomputable def get_status (net btc : ℚ) (liqSma btcSma : Option ℚ) (corr : Option ℝ) : Signal :=
  let liq_trend_up := gtNaN net liqSma
  let btc_trend_up := gtNaN btc btcSma
  let high_corr := corrHigh corr
  if liq_trend_up && btc_trend_up && high_corr then Signal.STRONG_LONG
  else if !liq_trend_up && btc_trend_up then Signal.DIVERGENCE
  else if liq_trend_up && !btc_trend_up then Signal.BUY_OPPORTUNITY
  else Signal.NEUTRAL

/-- `df['c'] = ...` on the column list: pandas appends the label when it is
new and keeps the list unchanged when the column already exists (the values
are overwritten either way). -/
def addCol (cols : List String) (c : String) : List String :=
  if c ∈ cols then cols else cols ++ [c]

/-- The signal engine `calculate_signal` of `cloud_app.py`.  The three
rolling columns are assigned first; `df.apply(get_status, axis=1)` then
reads each row (its two data entries and its three freshly assigned derived
entries) to produce the `Signal` column. -/
noncomputable def calculate_signal (df : DataFrame) : DataFrame :=
  let n := df.dates.length
  let liqS := (List.range n).map (fun i => smaAt df.netLiquidity 20 i)
  let btcS := (List.range n).map (fun i => smaAt df.btcPrice 20 i)
  let corrS := (List.range n).map (fun i => corrAt df.netLiquidity df.btcPrice i)
  let sig := (List.range n).map (fun i =>
    get_status (df.netLiquidity.getD i 0) (df.btcPrice.getD i 0)
      (liqS.getD i none) (btcS.getD i none) (corrS.getD i none))
  { df with
    liqSMA20 := liqS
    btcSMA20 := btcS
    correlation := corrS
    signal := sig
    columns :=
      addCol (addCol (addCol (addCol df.columns "Liq_SMA_20") "BTC_SMA_20") "Correlation")
        "Signal" }

/-- Truncation of a table to its first `k` rows. -/
def DataFrame.truncate (df : DataFrame) (k : ℕ) : DataFrame :=
  ⟨df.dates.take k, df.netLiquidity.take k, df.btcPrice.take k, df.liqSMA20.take k,
    df.btcSMA20.take k, df.correlation.take k, df.signal.take k, df.columns⟩

/-- Centered cross sum `Σ (xⱼ − x̄)(yⱼ − ȳ)` over the positions of `x`
(the spec's covariance numerator, from its words in §4.1). -/
def centeredSum (x y : List ℚ) : ℚ :=
  ∑ j in Finset.range x.length,
    (x.getD j 0 - x.sum / (x.length : ℚ)) * (y.getD j 0 - y.sum / (y.length : ℚ))

/-- Modelled from the spec: the textbook Pearson coefficient, covariance of
the two windows over the product of their standard deviations (the `1/(n−1)`
normalisations cancel in the ratio). -/
noncomputable def pearson (x y : List ℚ) : ℝ :=
  (centeredSum x y : ℝ) / Real.sqrt ((centeredSum x x : ℝ) * (centeredSum y y : ℝ))

/-! Helper lemmas: indexing into mapped ranges and windows. -/

theorem getElem?_map_range {α : Type} (g : ℕ → α) {n i : ℕ} (hi : i < n) :
    ((List.range n).map g)[i]? = some (g i) := by
  rw [List.getElem?_map, List.getElem?_range hi]; rfl

theorem getD_map_range {α : Type} (g : ℕ → α) {n i : ℕ} (hi : i < n) (d : α) :
    ((List.range n).map g).getD i d = g i := by
  rw [List.getD_eq_getD_get?, List.get?_eq_getElem?, getElem?_map_range g hi, Option.getD_some]

theorem length_windowAt (xs : List ℚ) (w i : ℕ) :
    (windowAt xs w i).length = min (i + 1) xs.length - (i + 1 - w) := by
  simp [windowAt]

theorem windowAt_length_of_le (xs : List ℚ) {w i : ℕ} (hw : w ≤ i + 1)
    (hl : i < xs.length) : (windowAt xs w i).length = w := by
  rw [length_windowAt]; omega

theorem smaAt_eq_none_of_lt (xs : List ℚ) {w i : ℕ} (hw : 0 < w) (h : i + 1 < w) :
    smaAt xs w i = none := by
  have hlen : (windowAt xs w i).length ≠ w := by rw [length_windowAt]; omega
  simp [smaAt, hlen]

theorem windowAt_take (xs : List ℚ) {k i : ℕ} (w : ℕ) (h : i < k) :
    windowAt (xs.take k) w i = windowAt xs w i := by
  unfold windowAt
  rw [List.take_take, min_eq_left (by omega)]

theorem getElem?_windowAt (xs : List ℚ) {w i j : ℕ} (hw : w ≤ i + 1) (hj : j < w) :
    (windowAt xs w i)[j]? = xs[i + 1 - w + j]? := by
  unfold windowAt
  rw [List.getElem?_drop, List.getElem?_take_of_lt (by omega)]

theorem getD_windowAt (xs : List ℚ) {w i j : ℕ} (hw : w ≤ i + 1) (hj : j < w) (d : ℚ) :
    (windowAt xs w i).getD j d = xs.getD (i + 1 - w + j) d := by
  rw [List.getD_eq_getD_get?, List.getD_eq_getD_get?, List.get?_eq_getElem?,
    List.get?_eq_getElem?, getElem?_windowAt xs hw hj]

/-! Helper lemmas: the columns of the engine's output. -/

theorem calc_dates (df : DataFrame) : (calculate_signal df).dates = df.dates := rfl

theorem calc_net (df : DataFrame) : (calculate_signal df).netLiquidity = df.netLiquidity := rfl

theorem calc_btc (df : DataFrame) : (calculate_signal df).btcPrice = df.btcPrice := rfl

theorem calc_liqSMA20 (df : DataFrame) :
    (calculate_signal df).liqSMA20 =
      (List.range df.dates.length).map (fun i => smaAt df.netLiquidity 20 i) := rfl

theorem calc_btcSMA20 (df : DataFrame) :
    (calculate_signal df).btcSMA20 =
      (List.range df.dates.length).map (fun i => smaAt df.btcPrice 20 i) := rfl

theorem calc_correlation (df : DataFrame) :
    (calculate_signal df).correlation =
      (List.range df.dates.length).map (fun i => corrAt df.netLiquidity df.btcPrice i) := rfl

theorem calc_columns (df : DataFrame) :
    (calculate_signal df).columns =
      addCol (addCol (addCol (addCol df.columns "Liq_SMA_20") "BTC_SMA_20") "Correlation")
        "Signal" := rfl

theorem liqSMA20_get? (df : DataFrame) {i : ℕ} (hi : i < df.dates.length) :
    (calculate_signal df).liqSMA20[i]? = some (smaAt df.netLiquidity 20 i) := by
  rw [calc_liqSMA20]; exact getElem?_map_range _ hi

theorem btcSMA20_get? (df : DataFrame) {i : ℕ} (hi : i < df.dates.length) :
    (calculate_signal df).btcSMA20[i]? = some (smaAt df.btcPrice 20 i) := by
  rw [calc_btcSMA20]; exact getElem?_map_range _ hi

theorem correlation_get? (df : DataFrame) {i : ℕ} (hi : i < df.dates.length) :
    (calculate_signal df).correlation[i]? = some (corrAt df.netLiquidity df.btcPrice i) := by
  rw [calc_correlation]; exact getElem?_map_range _ hi

theorem signal_get? (df : DataFrame) {i : ℕ} (hi : i < df.dates.length) :
    (calculate_signal df).signal[i]? =
      some (get_status (df.netLiquidity.getD i 0) (df.btcPrice.getD i 0)
        (smaAt df.netLiquidity 20 i) (smaAt df.btcPrice 20 i)
        (corrAt df.netLiquidity df.btcPrice i)) := by
  show ((List.range df.dates.length).map _)[i]? = _
  rw [getElem?_map_range _ hi]
  rw [getD_map_range _ hi, getD_map_range _ hi, getD_map_range _ hi]

/-! Helper lemmas: list sums as `Finset.range` sums, and the centered-sum
identities behind the Pearson coefficient. -/

theorem list_sum_getD (l : List ℚ) :
    l.sum = ∑ j in Finset.range l.length, l.getD j 0 := by
  induction l with
  | nil => simp
  | cons a t ih =>
    rw [List.sum_cons, List.length_cons, Finset.sum_range_succ']
    simp only [List.getD_cons_succ, List.getD_cons_zero]
    rw [← ih]; ring

theorem list_sum_sq_getD (l : List ℚ) :
    (l.map (fun a => a ^ 2)).sum = ∑ j in Finset.range l.length, l.getD j 0 ^ 2 := by
  induction l with
  | nil => simp
  | cons a t ih =>
    rw [List.map_cons, List.sum_cons, List.length_cons, Finset.sum_range_succ']
    simp only [List.getD_cons_succ, List.getD_cons_zero]
    rw [← ih]; ring

theorem list_sum_zip_getD (x : List ℚ) : ∀ (y : List ℚ), y.length = x.length →
    (List.zipWith (fun a b => a * b) x y).sum =
      ∑ j in Finset.range x.length, x.getD j 0 * y.getD j 0 := by
  induction x with
  | nil => intro y h; simp
  | cons a t ih =>
    intro y h
    cases y with
    | nil => simp at h
    | cons b u =>
      rw [List.zipWith_cons_cons, List.sum_cons, List.length_cons, Finset.sum_range_succ']
      simp only [List.getD_cons_succ, List.getD_cons_zero]
      rw [← ih u (by simpa using h)]; ring

theorem covNum_self (x : List ℚ) : covNum x x = varNum x := by
  unfold covNum varNum
  rw [list_sum_zip_getD x x rfl, list_sum_sq_getD]
  simp only [pow_two]

theorem mul_centeredSum (x y : List ℚ) (h : y.length = x.length) (h0 : x.length ≠ 0) :
    (x.length : ℚ) * centeredSum x y = covNum x y := by
  have hn : (x.length : ℚ) ≠ 0 := Nat.cast_ne_zero.mpr h0
  have hsy : ∑ j in Finset.range x.length, y.getD j 0 = y.sum := by
    rw [list_sum_getD y, h]
  unfold centeredSum covNum
  rw [list_sum_zip_getD x y h, h]
  simp only [sub_mul, mul_sub, Finset.sum_sub_distrib, ← Finset.sum_mul, ← Finset.mul_sum,
    Finset.sum_const, Finset.card_range, nsmul_eq_mul]
  rw [← list_sum_getD x, hsy]
  field_simp

theorem mul_centeredSum_self (x : List ℚ) (h0 : x.length ≠ 0) :
    (x.length : ℚ) * centeredSum x x = varNum x :=
  (mul_centeredSum x x rfl h0).trans (covNum_self x)

theorem centeredSum_self_nonneg (x : List ℚ) : 0 ≤ centeredSum x x :=
  Finset.sum_nonneg fun _ _ => mul_self_nonneg _

theorem varNum_nonneg (x : List ℚ) : 0 ≤ varNum x := by
  rcases Nat.eq_zero_or_pos x.length with h | h
  · have hx : x = [] := List.length_eq_zero.mp h
    subst hx; simp [varNum]
  · rw [← mul_centeredSum_self x (by omega)]
    exact mul_nonneg (by positivity) (centeredSum_self_nonneg x)

theorem centeredSum_sq_le (x y : List ℚ) (h : y.length = x.length) :
    centeredSum x y ^ 2 ≤ centeredSum x x * centeredSum y y := by
  unfold centeredSum
  rw [h]
  have h2 := Finset.sum_mul_sq_le_sq_mul_sq (Finset.range x.length)
    (fun j => x.getD j 0 - x.sum / (x.length : ℚ))
    (fun j => y.getD j 0 - y.sum / (x.length : ℚ))
  simpa [pow_two] using h2

theorem covNum_sq_le (x y : List ℚ) (h : y.length = x.length) :
    covNum x y ^ 2 ≤ varNum x * varNum y := by
  rcases Nat.eq_zero_or_pos x.length with h0 | h0
  · have hx : x = [] := List.length_eq_zero.mp h0
    have hy : y = [] := List.length_eq_zero.mp (h.trans h0)
    subst hx; subst hy; simp [covNum, varNum]
  · have e1 := mul_centeredSum x y h (by omega)
    have e2 := mul_centeredSum_self x (by omega)
    have e3 := mul_centeredSum_self y (by omega)
    have hcs := centeredSum_sq_le x y h
    calc covNum x y ^ 2 = (x.length : ℚ) ^ 2 * centeredSum x y ^ 2 := by rw [← e1]; ring
      _ ≤ (x.length : ℚ) ^ 2 * (centeredSum x x * centeredSum y y) := by
          exact mul_le_mul_of_nonneg_left hcs (by positivity)
      _ = ((x.length : ℚ) * centeredSum x x) * ((x.length : ℚ) * centeredSum y y) := by ring
      _ = varNum x * varNum y := by
          rw [e2, show ((x.length : ℚ)) = ((y.length : ℚ)) by rw [h], e3]

/-! Helper lemmas: the rolling correlation. -/

theorem corrAt_eq_none_of_lt (xs ys : List ℚ) {i : ℕ} (h : i + 1 < 30) :
    corrAt xs ys i = none := by
  have hlen : (windowAt xs 30 i).length ≠ 30 := by rw [length_windowAt]; omega
  unfold corrAt
  rw [if_neg (by tauto)]

theorem corrAt_bounds (xs ys : List ℚ) (i : ℕ) {r : ℝ}
    (h : corrAt xs ys i = some r) : -1 ≤ r ∧ r ≤ 1 := by
  unfold corrAt at h
  by_cases hlen : (windowAt xs 30 i).length = 30 ∧ (windowAt ys 30 i).length = 30
  · rw [if_pos hlen] at h
    by_cases hvar : varNum (windowAt xs 30 i) = 0 ∨ varNum (windowAt ys 30 i) = 0
    · rw [if_pos hvar] at h; exact absurd h (by simp)
    · rw [if_neg hvar] at h
      push_neg at hvar
      have hvx : (0 : ℚ) < varNum (windowAt xs 30 i) :=
        lt_of_le_of_ne (varNum_nonneg _) (Ne.symm hvar.1)
      have hvy : (0 : ℚ) < varNum (windowAt ys 30 i) :=
        lt_of_le_of_ne (varNum_nonneg _) (Ne.symm hvar.2)
      have hcs : (covNum (windowAt xs 30 i) (windowAt ys 30 i) : ℚ) ^ 2 ≤
          varNum (windowAt xs 30 i) * varNum (windowAt ys 30 i) :=
        covNum_sq_le _ _ (hlen.2.trans hlen.1.symm)
      have hprod : (0 : ℝ) < (varNum (windowAt xs 30 i) : ℝ) * (varNum (windowAt ys 30 i) : ℝ) := by
        have := mul_pos hvx hvy
        exact_mod_cast this
      have hs : (0 : ℝ) < Real.sqrt ((varNum (windowAt xs 30 i) : ℝ) * (varNum (windowAt ys 30 i) : ℝ)) :=
        Real.sqrt_pos.mpr hprod
      have habs : |(covNum (windowAt xs 30 i) (windowAt ys 30 i) : ℝ)| ≤
          Real.sqrt ((varNum (windowAt xs 30 i) : ℝ) * (varNum (windowAt ys 30 i) : ℝ)) := by
        rw [← Real.sqrt_sq_eq_abs]
        apply Real.sqrt_le_sqrt
        exact_mod_cast hcs
      have hr : r = (covNum (windowAt xs 30 i) (windowAt ys 30 i) : ℝ) /
          Real.sqrt ((varNum (windowAt xs 30 i) : ℝ) * (varNum (windowAt ys 30 i) : ℝ)) :=
        (Option.some_injective _ h).symm
      have habs' : |r| ≤ 1 := by
        rw [hr, abs_div, abs_of_pos hs]
        exact (div_le_one hs).mpr habs
      exact abs_le.mp habs'
  · rw [if_neg hlen] at h; exact absurd h (by simp)

theorem corrAt_eq_none_of_var_zero (xs ys : List ℚ) (i : ℕ)
    (h : varNum (windowAt xs 30 i) = 0 ∨ varNum (windowAt ys 30 i) = 0) :
    corrAt xs ys i = none := by
  unfold corrAt
  by_cases hlen : (windowAt xs 30 i).length = 30 ∧ (windowAt ys 30 i).length = 30
  · rw [if_pos hlen, if_pos h]
  · rw [if_neg hlen]

theorem corrAt_eq_pearson (xs ys : List ℚ) (i : ℕ)
    (hx : (windowAt xs 30 i).length = 30) (hy : (windowAt ys 30 i).length = 30)
    (hvx : varNum (windowAt xs 30 i) ≠ 0) (hvy : varNum (windowAt ys 30 i) ≠ 0) :
    corrAt xs ys i = some (pearson (windowAt xs 30 i) (windowAt ys 30 i)) := by
  unfold corrAt
  rw [if_pos ⟨hx, hy⟩, if_neg (by tauto)]
  congr 1
  unfold pearson
  have e1 : (30 : ℚ) * centeredSum (windowAt xs 30 i) (windowAt ys 30 i) =
      covNum (windowAt xs 30 i) (windowAt ys 30 i) := by
    have := mul_centeredSum (windowAt xs 30 i) (windowAt ys 30 i)
      (hy.trans hx.symm) (by omega)
    rwa [hx] at this
  have e2 : (30 : ℚ) * centeredSum (windowAt xs 30 i) (windowAt xs 30 i) =
      varNum (windowAt xs 30 i) := by
    have := mul_centeredSum_self (windowAt xs 30 i) (by omega)
    rwa [hx] at this
  have e3 : (30 : ℚ) * centeredSum (windowAt ys 30 i) (windowAt ys 30 i) =
      varNum (windowAt ys 30 i) := by
    have := mul_centeredSum_self (windowAt ys 30 i) (by omega)
    rwa [hy] at this
  have hprod : (varNum (windowAt xs 30 i) : ℝ) * (varNum (windowAt ys 30 i) : ℝ) =
      900 * ((centeredSum (windowAt xs 30 i) (windowAt xs 30 i) : ℝ) *
        (centeredSum (windowAt ys 30 i) (windowAt ys 30 i) : ℝ)) := by
    rw [← e2, ← e3]; push_cast; ring
  rw [hprod, Real.sqrt_mul (by norm_num : (0 : ℝ) ≤ 900),
    show Real.sqrt 900 = 30 by
      rw [show (900 : ℝ) = 30 ^ 2 by norm_num, Real.sqrt_sq (by norm_num)]]
  rw [← e1]
  push_cast
  rw [mul_div_mul_left _ _ (by norm_num : (30 : ℝ) ≠ 0)]

/-! Helper lemmas: the row classifier and constant series. -/

theorem get_status_none_smas (a b : ℚ) (c : Option ℝ) :
    get_status a b none none c = Signal.NEUTRAL := by
  simp [get_status, gtNaN]

theorem get_status_corr_none_ne (a b : ℚ) (s t : Option ℚ) :
    get_status a b s t none ≠ Signal.STRONG_LONG := by
  unfold get_status
  simp only [corrHigh, Bool.and_false, Bool.false_eq_true, if_false]
  split
  · simp
  · split
    · simp
    · simp

theorem windowAt_sum (xs : List ℚ) {w i : ℕ} (hw : w ≤ i + 1) (hl : i < xs.length) :
    (windowAt xs w i).sum = ∑ j in Finset.range w, xs.getD (i + 1 - w + j) 0 := by
  rw [list_sum_getD, windowAt_length_of_le xs hw hl]
  exact Finset.sum_congr rfl fun j hj => getD_windowAt xs hw (Finset.mem_range.mp hj) 0

theorem smaAt_eq_of_le (xs : List ℚ) {w i : ℕ} (hw : w ≤ i + 1) (hl : i < xs.length) :
    smaAt xs w i = some ((∑ j in Finset.range w, xs.getD (i + 1 - w + j) 0) / (w : ℚ)) := by
  unfold smaAt
  rw [if_pos (windowAt_length_of_le xs hw hl), windowAt_sum xs hw hl]

theorem varNum_eq_zero_iff_centeredSum (x : List ℚ) (hx : x.length = 30) :
    varNum x = 0 ↔ centeredSum x x = 0 := by
  have e := mul_centeredSum_self x (by omega)
  rw [hx] at e
  constructor
  · intro h
    exact (mul_eq_zero.mp (e.trans h)).resolve_left (by norm_num)
  · intro h
    rw [← e, h, mul_zero]

theorem list_sum_const (l : List ℚ) (c : ℚ) (h : ∀ q ∈ l, q = c) :
    l.sum = (l.length : ℚ) * c := by
  induction l with
  | nil => simp
  | cons a t ih =>
    rw [List.sum_cons, ih (fun q hq => h q (List.mem_cons_of_mem a hq)),
      h a (List.mem_cons_self a t), List.length_cons]
    push_cast
    ring

theorem list_sum_sq_const (l : List ℚ) (c : ℚ) (h : ∀ q ∈ l, q = c) :
    (l.map (fun a => a ^ 2)).sum = (l.length : ℚ) * c ^ 2 := by
  induction l with
  | nil => simp
  | cons a t ih =>
    rw [List.map_cons, List.sum_cons, ih (fun q hq => h q (List.mem_cons_of_mem a hq)),
      h a (List.mem_cons_self a t), List.length_cons]
    push_cast
    ring

theorem varNum_of_constant (l : List ℚ) (c : ℚ) (h : ∀ q ∈ l, q = c) : varNum l = 0 := by
  unfold varNum
  rw [list_sum_const l c h, list_sum_sq_const l c h]
  ring

theorem corrAt_none_of_const (xs ys : List ℚ) (c : ℚ) (h : ∀ q ∈ xs, q = c) (i : ℕ) :
    corrAt xs ys i = none := by
  by_cases hlen : (windowAt xs 30 i).length = 30 ∧ (windowAt ys 30 i).length = 30
  · apply corrAt_eq_none_of_var_zero
    left
    refine varNum_of_constant _ c fun q hq => h q ?_
    exact List.mem_of_mem_take (List.mem_of_mem_drop hq)
  · unfold corrAt
    rw [if_neg hlen]

theorem calc_signal_length (df : DataFrame) :
    (calculate_signal df).signal.length = df.dates.length := by
  show ((List.range _).map _).length = _
  rw [List.length_map, List.length_range]

theorem getD_take {α : Type} (l : List α) {k i : ℕ} (h : i < k) (d : α) :
    (l.take k).getD i d = l.getD i d := by
  rw [List.getD_eq_getD_get?, List.getD_eq_getD_get?, List.get?_eq_getElem?,
    List.get?_eq_getElem?, List.getElem?_take_of_lt h]

/-! Helper lemmas: the column-label bookkeeping of in-place assignment. -/

theorem addCol_self_mem (cols : List String) (c : String) : c ∈ addCol cols c := by
  unfold addCol
  split
  · assumption
  · simp

theorem addCol_mem_of_mem (cols : List String) {c : String} (d : String) (h : c ∈ cols) :
    c ∈ addCol cols d := by
  unfold addCol
  split
  · exact h
  · exact List.mem_append_left _ h

theorem addCol_eq_of_mem (cols : List String) {c : String} (h : c ∈ cols) :
    addCol cols c = cols := if_pos h

theorem calc_signal_col (df : DataFrame) :
    (calculate_signal df).signal =
      (List.range df.dates.length).map (fun i =>
        get_status (df.netLiquidity.getD i 0) (df.btcPrice.getD i 0)
          (((List.range df.dates.length).map (fun j => smaAt df.netLiquidity 20 j)).getD i none)
          (((List.range df.dates.length).map (fun j => smaAt df.btcPrice 20 j)).getD i none)
          (((List.range df.dates.length).map
            (fun j => corrAt df.netLiquidity df.btcPrice j)).getD i none)) := rfl

/-! Helper lemmas: distinguishing values force nonzero variance; full windows. -/

theorem centeredSum_self_ne_zero (x : List ℚ) {j k : ℕ} (hj : j < x.length)
    (hk : k < x.length) (hne : x.getD j 0 ≠ x.getD k 0) : centeredSum x x ≠ 0 := by
  intro h0
  have hall := (Finset.sum_eq_zero_iff_of_nonneg
    (fun m _ => mul_self_nonneg (x.getD m 0 - x.sum / (x.length : ℚ)))).mp h0
  have hj0 := mul_self_eq_zero.mp (hall j (Finset.mem_range.mpr hj))
  have hk0 := mul_self_eq_zero.mp (hall k (Finset.mem_range.mpr hk))
  exact hne ((sub_eq_zero.mp hj0).trans (sub_eq_zero.mp hk0).symm)

theorem windowAt_full (xs : List ℚ) (h : xs.length = 30) : windowAt xs 30 29 = xs := by
  show (xs.take 30).drop 0 = xs
  rw [List.drop_zero, ← h, List.take_length]

/-! Claim theorems. -/

/-- C1: every output row's `signal` is the four-branch priority chain with
first match winning, evaluated over that row's output fields:
STRONG_LONG when net liquidity exceeds its SMA20 and price exceeds its
SMA20 and the rolling correlation exceeds 0.5; else DIVERGENCE when not
liq-up and price-up; else BUY_OPPORTUNITY when liq-up and not price-up;
else NEUTRAL.  Comparisons against an undefined (`none`) field are false. -/
theorem signal_priority_chain (df : DataFrame) (i : ℕ) (hi : i < df.dates.length) :
    (calculate_signal df).signal[i]? = some (
      let liq_up := gtNaN ((calculate_signal df).netLiquidity.getD i 0)
        ((calculate_signal df).liqSMA20.getD i none)
      let price_up := gtNaN ((calculate_signal df).btcPrice.getD i 0)
        ((calculate_signal df).btcSMA20.getD i none)
      let high_corr := corrHigh ((calculate_signal df).correlation.getD i none)
      if liq_up && price_up && high_corr then Signal.STRONG_LONG
      else if !liq_up && price_up then Signal.DIVERGENCE
      else if liq_up && !price_up then Signal.BUY_OPPORTUNITY
      else Signal.NEUTRAL) := by
  rw [signal_get? df hi]
  rw [calc_net, calc_btc, calc_liqSMA20, calc_btcSMA20, calc_correlation,
    getD_map_range _ hi, getD_map_range _ hi, getD_map_range _ hi]
  rfl

/-- C1 witness: the chain equation instantiated at the single-row table. -/
theorem signal_priority_chain_witness :
    (calculate_signal exInput).signal[0]? = some (
      let liq_up := gtNaN ((calculate_signal exInput).netLiquidity.getD 0 0)
        ((calculate_signal exInput).liqSMA20.getD 0 none)
      let price_up := gtNaN ((calculate_signal exInput).btcPrice.getD 0 0)
        ((calculate_signal exInput).btcSMA20.getD 0 none)
      let high_corr := corrHigh ((calculate_signal exInput).correlation.getD 0 none)
      if liq_up && price_up && high_corr then Signal.STRONG_LONG
      else if !liq_up && price_up then Signal.DIVERGENCE
      else if liq_up && !price_up then Signal.BUY_OPPORTUNITY
      else Signal.NEUTRAL) :=
  signal_priority_chain exInput 0 (by decide)

/-- C4: the signal computation is total — every row of any input table
(including a single-row table) deterministically receives exactly one of
the four enumerated values, never a missing entry. -/
theorem signal_total_enumeration (df : DataFrame) (i : ℕ) (hi : i < df.dates.length) :
    ∃ s : Signal, (calculate_signal df).signal[i]? = some s ∧
      (s = Signal.STRONG_LONG ∨ s = Signal.DIVERGENCE ∨ s = Signal.BUY_OPPORTUNITY ∨
        s = Signal.NEUTRAL) := by
  refine ⟨_, signal_get? df hi, ?_⟩
  cases get_status (df.netLiquidity.getD i 0) (df.btcPrice.getD i 0)
    (smaAt df.netLiquidity 20 i) (smaAt df.btcPrice 20 i)
    (corrAt df.netLiquidity df.btcPrice i) with
  | STRONG_LONG => exact Or.inl rfl
  | DIVERGENCE => exact Or.inr (Or.inl rfl)
  | BUY_OPPORTUNITY => exact Or.inr (Or.inr (Or.inl rfl))
  | NEUTRAL => exact Or.inr (Or.inr (Or.inr rfl))

/-- C4 witness: the single-row table receives one of the four values. -/
theorem signal_total_enumeration_witness :
    ∃ s : Signal, (calculate_signal exInput).signal[0]? = some s ∧
      (s = Signal.STRONG_LONG ∨ s = Signal.DIVERGENCE ∨ s = Signal.BUY_OPPORTUNITY ∨
        s = Signal.NEUTRAL) :=
  signal_total_enumeration exInput 0 (by decide)

/-- C10: every row whose 20-row moving averages are still warming up
(index 0 through 18) is classified exactly NEUTRAL: both trend comparisons
are false against the undefined averages, so the DIVERGENCE and
BUY_OPPORTUNITY branches are unreachable there as well. -/
theorem warmup_rows_neutral (df : DataFrame) (i : ℕ) (h19 : i < 19)
    (hi : i < df.dates.length) :
    (calculate_signal df).signal[i]? = some Signal.NEUTRAL := by
  rw [signal_get? df hi, smaAt_eq_none_of_lt df.netLiquidity (by omega) (by omega),
    smaAt_eq_none_of_lt df.btcPrice (by omega) (by omega), get_status_none_smas]

/-- C10 witness: row 0 of the single-row table is NEUTRAL. -/
theorem warmup_rows_neutral_witness :
    (calculate_signal exInput).signal[0]? = some Signal.NEUTRAL :=
  warmup_rows_neutral exInput 0 (by decide) (by decide)

/-- C5 counterexample: the engine is not free of side effects on the
caller's input object.  Column assignment mutates the frame in place, so
after the call the single-row input table's set of columns is no longer
what it was: it has gained the four derived columns. -/
theorem engine_mutates_columns_cex :
    (calculate_signal exInput).columns ≠ exInput.columns := by
  decide

/-- C5 (amended): the engine preserves the caller's date index and the
values of the `net_liquidity` and `asset_price` columns, but it mutates the
input object in place, appending the four derived column labels to it. -/
theorem engine_preserves_data_adds_columns (df : DataFrame)
    (h : df.columns = inputColumns) :
    (calculate_signal df).dates = df.dates ∧
    (calculate_signal df).netLiquidity = df.netLiquidity ∧
    (calculate_signal df).btcPrice = df.btcPrice ∧
    (calculate_signal df).columns =
      df.columns ++ ["Liq_SMA_20", "BTC_SMA_20", "Correlation", "Signal"] := by
  refine ⟨rfl, rfl, rfl, ?_⟩
  rw [calc_columns, h]
  decide

/-- C5 witness: the amended statement at the single-row table. -/
theorem engine_preserves_data_adds_columns_witness :
    (calculate_signal exInput).dates = exInput.dates ∧
    (calculate_signal exInput).netLiquidity = exInput.netLiquidity ∧
    (calculate_signal exInput).btcPrice = exInput.btcPrice ∧
    (calculate_signal exInput).columns =
      exInput.columns ++ ["Liq_SMA_20", "BTC_SMA_20", "Correlation", "Signal"] :=
  engine_preserves_data_adds_columns exInput rfl

/-- C9: the output has the input's row count and date order (the date index
is untouched), keeps the input fields, and carries exactly the four
additional derived fields, one value per row. -/
theorem output_shape (df : DataFrame) (h : df.columns = inputColumns) :
    (calculate_signal df).dates = df.dates ∧
    (calculate_signal df).netLiquidity = df.netLiquidity ∧
    (calculate_signal df).btcPrice = df.btcPrice ∧
    (calculate_signal df).liqSMA20.length = df.dates.length ∧
    (calculate_signal df).btcSMA20.length = df.dates.length ∧
    (calculate_signal df).correlation.length = df.dates.length ∧
    (calculate_signal df).signal.length = df.dates.length ∧
    (calculate_signal df).columns =
      inputColumns ++ ["Liq_SMA_20", "BTC_SMA_20", "Correlation", "Signal"] := by
  refine ⟨rfl, rfl, rfl, ?_, ?_, ?_, ?_, ?_⟩
  · rw [calc_liqSMA20, List.length_map, List.length_range]
  · rw [calc_btcSMA20, List.length_map, List.length_range]
  · rw [calc_correlation, List.length_map, List.length_range]
  · exact calc_signal_length df
  · rw [calc_columns, h]
    decide

/-- C9 witness: the shape equations at the single-row table. -/
theorem output_shape_witness :
    (calculate_signal exInput).dates = exInput.dates ∧
    (calculate_signal exInput).netLiquidity = exInput.netLiquidity ∧
    (calculate_signal exInput).btcPrice = exInput.btcPrice ∧
    (calculate_signal exInput).liqSMA20.length = exInput.dates.length ∧
    (calculate_signal exInput).btcSMA20.length = exInput.dates.length ∧
    (calculate_signal exInput).correlation.length = exInput.dates.length ∧
    (calculate_signal exInput).signal.length = exInput.dates.length ∧
    (calculate_signal exInput).columns =
      inputColumns ++ ["Liq_SMA_20", "BTC_SMA_20", "Correlation", "Signal"] :=
  output_shape exInput rfl

/-- C2: both 20-row moving averages are undefined (NaN) for rows 0–18 of
every table and, for every row `i ≥ 19`, equal the arithmetic mean of the
corresponding series over the trailing 20 rows ending at and including
row `i`. -/
theorem sma20_warmup_and_trailing_mean :
    (∀ (df : DataFrame) (i : ℕ), i < 19 → i < df.dates.length →
      (calculate_signal df).liqSMA20[i]? = some none ∧
      (calculate_signal df).btcSMA20[i]? = some none) ∧
    (∀ (df : DataFrame) (i : ℕ), df.WF → 19 ≤ i → i < df.dates.length →
      (calculate_signal df).liqSMA20[i]? =
        some (some ((∑ j in Finset.range 20, df.netLiquidity.getD (i - 19 + j) 0) / 20)) ∧
      (calculate_signal df).btcSMA20[i]? =
        some (some ((∑ j in Finset.range 20, df.btcPrice.getD (i - 19 + j) 0) / 20))) := by
  constructor
  · intro df i h19 hi
    constructor
    · rw [liqSMA20_get? df hi, smaAt_eq_none_of_lt df.netLiquidity (by omega) (by omega)]
    · rw [btcSMA20_get? df hi, smaAt_eq_none_of_lt df.btcPrice (by omega) (by omega)]
  · intro df i hwf h19 hi
    have hIdx : ∀ S : List ℚ, (∑ j in Finset.range 20, S.getD (i + 1 - 20 + j) 0) =
        ∑ j in Finset.range 20, S.getD (i - 19 + j) 0 := fun S =>
      Finset.sum_congr rfl fun j _ => by rw [show i + 1 - 20 + j = i - 19 + j by omega]
    constructor
    · rw [liqSMA20_get? df hi,
        smaAt_eq_of_le df.netLiquidity (by omega) (by rw [hwf.1]; exact hi), hIdx]
      norm_num
    · rw [btcSMA20_get? df hi,
        smaAt_eq_of_le df.btcPrice (by omega) (by rw [hwf.2]; exact hi), hIdx]
      norm_num

/-- C2 witness: undefined at row 0 of the single-row table; the trailing
mean at row 19 of the 30-row table. -/
theorem sma20_warmup_and_trailing_mean_witness :
    ((calculate_signal exInput).liqSMA20[0]? = some none ∧
      (calculate_signal exInput).btcSMA20[0]? = some none) ∧
    ((calculate_signal exFrame30).liqSMA20[19]? =
        some (some ((∑ j in Finset.range 20, exFrame30.netLiquidity.getD (19 - 19 + j) 0) / 20)) ∧
      (calculate_signal exFrame30).btcSMA20[19]? =
        some (some ((∑ j in Finset.range 20, exFrame30.btcPrice.getD (19 - 19 + j) 0) / 20))) :=
  ⟨sma20_warmup_and_trailing_mean.1 exInput 0 (by decide) (by decide),
   sma20_warmup_and_trailing_mean.2 exFrame30 19 (by decide) (by decide) (by decide)⟩

/-- C3: the rolling correlation is undefined (NaN) for rows 0–28; whenever
it is defined it lies in [-1, 1]; and from row 29 on it is NaN — never
coerced to 0 — exactly when either trailing 30-row window has zero
variance, and otherwise equals the textbook Pearson coefficient of the two
trailing 30-row windows. -/
theorem rolling_correlation_pearson :
    (∀ (df : DataFrame) (i : ℕ), i < 29 → i < df.dates.length →
      (calculate_signal df).correlation[i]? = some none) ∧
    (∀ (df : DataFrame) (i : ℕ) (r : ℝ),
      (calculate_signal df).correlation[i]? = some (some r) → -1 ≤ r ∧ r ≤ 1) ∧
    (∀ (df : DataFrame) (i : ℕ), df.WF → 29 ≤ i → i < df.dates.length →
      ((centeredSum (windowAt df.netLiquidity 30 i) (windowAt df.netLiquidity 30 i) = 0 ∨
        centeredSum (windowAt df.btcPrice 30 i) (windowAt df.btcPrice 30 i) = 0) →
        (calculate_signal df).correlation[i]? = some none) ∧
      (centeredSum (windowAt df.netLiquidity 30 i) (windowAt df.netLiquidity 30 i) ≠ 0 →
        centeredSum (windowAt df.btcPrice 30 i) (windowAt df.btcPrice 30 i) ≠ 0 →
        (calculate_signal df).correlation[i]? =
          some (some (pearson (windowAt df.netLiquidity 30 i)
            (windowAt df.btcPrice 30 i))))) := by
  refine ⟨?_, ?_, ?_⟩
  · intro df i h29 hi
    rw [correlation_get? df hi, corrAt_eq_none_of_lt df.netLiquidity df.btcPrice (by omega)]
  · intro df i r h
    by_cases hi : i < df.dates.length
    · rw [correlation_get? df hi] at h
      exact corrAt_bounds df.netLiquidity df.btcPrice i (Option.some_injective _ h)
    · rw [calc_correlation] at h
      rw [List.getElem?_eq_none (by rw [List.length_map, List.length_range]; omega)] at h
      exact absurd h (by simp)
  · intro df i hwf h29 hi
    have hlx : (windowAt df.netLiquidity 30 i).length = 30 :=
      windowAt_length_of_le df.netLiquidity (by omega) (by rw [hwf.1]; exact hi)
    have hly : (windowAt df.btcPrice 30 i).length = 30 :=
      windowAt_length_of_le df.btcPrice (by omega) (by rw [hwf.2]; exact hi)
    constructor
    · intro h
      rw [correlation_get? df hi]
      rw [corrAt_eq_none_of_var_zero df.netLiquidity df.btcPrice i]
      rcases h with h | h
      · exact Or.inl ((varNum_eq_zero_iff_centeredSum _ hlx).mpr h)
      · exact Or.inr ((varNum_eq_zero_iff_centeredSum _ hly).mpr h)
    · intro hx hy
      rw [correlation_get? df hi]
      rw [corrAt_eq_pearson df.netLiquidity df.btcPrice i hlx hly
        (fun h0 => hx ((varNum_eq_zero_iff_centeredSum _ hlx).mp h0))
        (fun h0 => hy ((varNum_eq_zero_iff_centeredSum _ hly).mp h0))]

/-- C3 witness: row 0 of the 30-row table is NaN; the constant-liquidity
table is NaN at row 29 (zero variance); the strictly increasing 30-row
table has a defined Pearson value at row 29 which lies in [-1, 1]. -/
theorem rolling_correlation_pearson_witness :
    (calculate_signal exFrame30).correlation[0]? = some none ∧
    (calculate_signal exFrame35).correlation[29]? = some none ∧
    (calculate_signal exFrame30).correlation[29]? =
      some (some (pearson (windowAt exFrame30.netLiquidity 30 29)
        (windowAt exFrame30.btcPrice 30 29))) ∧
    (-1 ≤ pearson (windowAt exFrame30.netLiquidity 30 29)
        (windowAt exFrame30.btcPrice 30 29) ∧
      pearson (windowAt exFrame30.netLiquidity 30 29)
        (windowAt exFrame30.btcPrice 30 29) ≤ 1) := by
  have hconst : centeredSum (windowAt exFrame35.netLiquidity 30 29)
      (windowAt exFrame35.netLiquidity 30 29) = 0 :=
    (varNum_eq_zero_iff_centeredSum _ (by decide)).mp
      (varNum_of_constant _ 100 fun q hq =>
        List.eq_of_mem_replicate (List.mem_of_mem_take (List.mem_of_mem_drop hq)))
  have hx : centeredSum (windowAt exFrame30.netLiquidity 30 29)
      (windowAt exFrame30.netLiquidity 30 29) ≠ 0 :=
    centeredSum_self_ne_zero _ (j := 0) (k := 1) (by decide) (by decide) (by decide)
  have hy : centeredSum (windowAt exFrame30.btcPrice 30 29)
      (windowAt exFrame30.btcPrice 30 29) ≠ 0 :=
    centeredSum_self_ne_zero _ (j := 0) (k := 1) (by decide) (by decide) (by decide)
  have hdef := (rolling_correlation_pearson.2.2 exFrame30 29 (by decide) (by decide)
    (by decide)).2 hx hy
  refine ⟨rolling_correlation_pearson.1 exFrame30 0 (by decide) (by decide),
    (rolling_correlation_pearson.2.2 exFrame35 29 (by decide) (by decide) (by decide)).1
      (Or.inl hconst),
    hdef,
    rolling_correlation_pearson.2.1 exFrame30 29 _ hdef⟩

/-- C6: comparisons against an undefined moving average or correlation are
false (`NaN > x` is false); consequently no row whose 30-row correlation
window is incomplete (index < 29) is ever STRONG_LONG, and a table with
constant net liquidity (zero variance, correlation NaN everywhere) never
produces STRONG_LONG at any row. -/
theorem undefined_comparisons_no_strong_long :
    (∀ a : ℚ, gtNaN a none = false) ∧
    corrHigh none = false ∧
    (∀ (df : DataFrame) (i : ℕ), i < 29 →
      (calculate_signal df).signal[i]? ≠ some Signal.STRONG_LONG) ∧
    (∀ (df : DataFrame) (c : ℚ), (∀ q ∈ df.netLiquidity, q = c) →
      ∀ i : ℕ, (calculate_signal df).signal[i]? ≠ some Signal.STRONG_LONG) := by
  refine ⟨fun a => rfl, rfl, ?_, ?_⟩
  · intro df i h29
    by_cases hi : i < df.dates.length
    · rw [signal_get? df hi, corrAt_eq_none_of_lt df.netLiquidity df.btcPrice (by omega)]
      intro hcon
      exact get_status_corr_none_ne _ _ _ _ (Option.some_injective _ hcon)
    · rw [calc_signal_col]
      rw [List.getElem?_eq_none (by rw [List.length_map, List.length_range]; omega)]
      simp
  · intro df c hconst i
    by_cases hi : i < df.dates.length
    · rw [signal_get? df hi, corrAt_none_of_const df.netLiquidity df.btcPrice c hconst i]
      intro hcon
      exact get_status_corr_none_ne _ _ _ _ (Option.some_injective _ hcon)
    · rw [calc_signal_col]
      rw [List.getElem?_eq_none (by rw [List.length_map, List.length_range]; omega)]
      simp

/-- C6 witness: NaN comparisons are false; row 0 of the single-row table is
not STRONG_LONG; the 35-row constant-liquidity scenario is not STRONG_LONG
at row 30 (after full warm-up). -/
theorem undefined_comparisons_no_strong_long_witness :
    gtNaN 0 none = false ∧
    corrHigh none = false ∧
    (calculate_signal exInput).signal[0]? ≠ some Signal.STRONG_LONG ∧
    (calculate_signal exFrame35).signal[30]? ≠ some Signal.STRONG_LONG :=
  ⟨undefined_comparisons_no_strong_long.1 0,
   undefined_comparisons_no_strong_long.2.1,
   undefined_comparisons_no_strong_long.2.2.1 exInput 0 (by decide),
   undefined_comparisons_no_strong_long.2.2.2 exFrame35 100
     (fun q hq => List.eq_of_mem_replicate hq) 30⟩

/-- C7: no look-ahead — truncating the input table to its first `k` rows
leaves every derived field of every row `i < k` unchanged. -/
theorem no_lookahead (df : DataFrame) (k i : ℕ) (hik : i < k) (hi : i < df.dates.length) :
    (calculate_signal (df.truncate k)).liqSMA20[i]? = (calculate_signal df).liqSMA20[i]? ∧
    (calculate_signal (df.truncate k)).btcSMA20[i]? = (calculate_signal df).btcSMA20[i]? ∧
    (calculate_signal (df.truncate k)).correlation[i]? =
      (calculate_signal df).correlation[i]? ∧
    (calculate_signal (df.truncate k)).signal[i]? = (calculate_signal df).signal[i]? := by
  have hi' : i < (df.truncate k).dates.length := by
    show i < (df.dates.take k).length
    rw [List.length_take]
    omega
  have htn : (df.truncate k).netLiquidity = df.netLiquidity.take k := rfl
  have htb : (df.truncate k).btcPrice = df.btcPrice.take k := rfl
  have hsmaN : smaAt (df.truncate k).netLiquidity 20 i = smaAt df.netLiquidity 20 i := by
    unfold smaAt
    rw [htn, windowAt_take df.netLiquidity 20 hik]
  have hsmaB : smaAt (df.truncate k).btcPrice 20 i = smaAt df.btcPrice 20 i := by
    unfold smaAt
    rw [htb, windowAt_take df.btcPrice 20 hik]
  have hcorr : corrAt (df.truncate k).netLiquidity (df.truncate k).btcPrice i =
      corrAt df.netLiquidity df.btcPrice i := by
    unfold corrAt
    rw [htn, htb, windowAt_take df.netLiquidity 30 hik, windowAt_take df.btcPrice 30 hik]
  have hgN : (df.truncate k).netLiquidity.getD i 0 = df.netLiquidity.getD i 0 := by
    rw [htn]
    exact getD_take df.netLiquidity hik 0
  have hgB : (df.truncate k).btcPrice.getD i 0 = df.btcPrice.getD i 0 := by
    rw [htb]
    exact getD_take df.btcPrice hik 0
  refine ⟨?_, ?_, ?_, ?_⟩
  · rw [liqSMA20_get? _ hi', liqSMA20_get? df hi, hsmaN]
  · rw [btcSMA20_get? _ hi', btcSMA20_get? df hi, hsmaB]
  · rw [correlation_get? _ hi', correlation_get? df hi, hcorr]
  · rw [signal_get? _ hi', signal_get? df hi, hsmaN, hsmaB, hcorr, hgN, hgB]

/-- C7 witness: the four equalities for row 5 of the 35-row table truncated
to its first 10 rows. -/
theorem no_lookahead_witness :
    (calculate_signal (exFrame35.truncate 10)).liqSMA20[5]? =
      (calculate_signal exFrame35).liqSMA20[5]? ∧
    (calculate_signal (exFrame35.truncate 10)).btcSMA20[5]? =
      (calculate_signal exFrame35).btcSMA20[5]? ∧
    (calculate_signal (exFrame35.truncate 10)).correlation[5]? =
      (calculate_signal exFrame35).correlation[5]? ∧
    (calculate_signal (exFrame35.truncate 10)).signal[5]? =
      (calculate_signal exFrame35).signal[5]? :=
  no_lookahead exFrame35 10 5 (by decide) (by decide)

/-- C8: the engine is idempotent — applying `calculate_signal` to its own
output reproduces that output exactly (the derived columns are recomputed
from the unchanged input columns and overwritten with equal values; the
column labels are already present). -/
theorem engine_idempotent (df : DataFrame) :
    calculate_signal (calculate_signal df) = calculate_signal df := by
  have m1 : "Liq_SMA_20" ∈ (calculate_signal df).columns := by
    rw [calc_columns]
    exact addCol_mem_of_mem _ _ (addCol_mem_of_mem _ _
      (addCol_mem_of_mem _ _ (addCol_self_mem _ _)))
  have m2 : "BTC_SMA_20" ∈ (calculate_signal df).columns := by
    rw [calc_columns]
    exact addCol_mem_of_mem _ _ (addCol_mem_of_mem _ _ (addCol_self_mem _ _))
  have m3 : "Correlation" ∈ (calculate_signal df).columns := by
    rw [calc_columns]
    exact addCol_mem_of_mem _ _ (addCol_self_mem _ _)
  have m4 : "Signal" ∈ (calculate_signal df).columns := by
    rw [calc_columns]
    exact addCol_self_mem _ _
  have hc : (calculate_signal (calculate_signal df)).columns =
      (calculate_signal df).columns := by
    rw [calc_columns (calculate_signal df), addCol_eq_of_mem _ m1, addCol_eq_of_mem _ m2,
      addCol_eq_of_mem _ m3, addCol_eq_of_mem _ m4]
  ext : 1
  · rfl
  · rfl
  · rfl
  · rfl
  · rfl
  · rfl
  · rfl
  · exact hc

end MacroRadar
